import Mathlib

/-!
Verification of the wcTestApp relay/session core: a shallow embedding of the
Go sources (internal/relay, internal/wallet, pkg/utils) in Lean 4, with
theorems settling the behavioural claims about the subscription registry,
the session lifecycle, message TTLs, the crypto wrappers and the JSON-RPC
frame handling.

Modelling conventions:
  * Go `map[string]V` becomes an association list `List (String × V)` with
    unique keys, with `mapLookup` / `mapInsert` / `mapDelete` mirroring Go's
    indexing, assignment and `delete`.
  * `time.Time` becomes `Int` nanoseconds; `time.Now().After(t)` is the
    strict comparison `t < now`.
  * `*websocket.Conn` handles become opaque `Nat` tokens.
  * Randomness (`crypto/rand.Read`) is an explicit entropy parameter
    `Nat → Nat`; `GenerateRandomBytes` masks each sample to a byte.
  * Functions returning `(T, error)` become `Option`/`Except`/`GoResult`
    values; `GoResult` additionally distinguishes a Go `panic` (which the
    standard library's `gcm.Seal`/`gcm.Open` raise on a wrong nonce length)
    from an ordinary returned error.
-/

set_option autoImplicit false

namespace WCTestApp

/-! ## Go map model -/

/-- Go map read `l[k]`: the value bound to `k`, if any. -/
def mapLookup {α : Type} : List (String × α) → String → Option α
  | [], _ => none
  | (k', v) :: rest, k => if k' = k then some v else mapLookup rest k

/-- Go map assignment `l[k] = v`: overwrite in place, or append a new binding. -/
def mapInsert {α : Type} : List (String × α) → String → α → List (String × α)
  | [], k, v => [(k, v)]
  | (k', v') :: rest, k, v =>
    if k' = k then (k, v) :: rest else (k', v') :: mapInsert rest k v

/-- Go `delete(l, k)`. -/
def mapDelete {α : Type} : List (String × α) → String → List (String × α)
  | [], _ => []
  | (k', v') :: rest, k => if k' = k then mapDelete rest k else (k', v') :: mapDelete rest k

/-! ## Subscription registry (internal/relay/subscription.go) -/

/-- `Subscription`: one client's subscription to one topic. -/
structure Subscription where
  Topic : String
  ClientID : String
  Connection : Nat
  CreatedAt : Int
deriving DecidableEq

/-- `SubscriptionManager`: topic → subscriptions, clientID → connection. -/
structure SubscriptionManager where
  subscriptions : List (String × List Subscription)
  clients : List (String × Nat)
deriving DecidableEq

/-- `NewSubscriptionManager`: both maps start empty. -/
def NewSubscriptionManager : SubscriptionManager := ⟨[], []⟩

/-- `SubscriptionManager.Subscribe`: no-op if the client is already subscribed
to the topic, otherwise append a new subscription and record the client's
connection. The Go method returns `error`, always `nil`; the second component
is that returned error. -/
def SubscriptionManager.Subscribe (m : SubscriptionManager) (topic clientID : String)
    (conn : Nat) (now : Int) : SubscriptionManager × Option String :=
  let subs := (mapLookup m.subscriptions topic).getD []
  if subs.any (fun s => s.ClientID == clientID) then
    (m, none)
  else
    ({ subscriptions := mapInsert m.subscriptions topic
         (subs ++ [{ Topic := topic, ClientID := clientID, Connection := conn, CreatedAt := now }]),
       clients := mapInsert m.clients clientID conn }, none)

/-- The removal `append(subs[:i], subs[i+1:]...)` at the first index whose
`ClientID` matches: drop the first matching subscription. -/
def removeFirstClient (clientID : String) : List Subscription → List Subscription
  | [] => []
  | s :: rest => if s.ClientID = clientID then rest else s :: removeFirstClient clientID rest

/-- `SubscriptionManager.Unsubscribe`: remove the client's subscription from
the topic; delete the topic's entry when its list becomes empty; no-op (with
`nil` error) when the topic or the client is not found. -/
def SubscriptionManager.Unsubscribe (m : SubscriptionManager) (topic clientID : String) :
    SubscriptionManager × Option String :=
  match mapLookup m.subscriptions topic with
  | none => (m, none)
  | some subs =>
    if subs.any (fun s => s.ClientID == clientID) then
      let subs' := removeFirstClient clientID subs
      if subs' = [] then
        ({ m with subscriptions := mapDelete m.subscriptions topic }, none)
      else
        ({ m with subscriptions := mapInsert m.subscriptions topic subs' }, none)
    else (m, none)

/-- One topic entry as `UnsubscribeAll` rewrites it: drop the first
subscription of `clientID` and drop the whole entry if that leaves it empty;
an entry not mentioning `clientID` is untouched. -/
def removeClientEntry (clientID : String) (e : String × List Subscription) :
    Option (String × List Subscription) :=
  if e.2.any (fun s => s.ClientID == clientID) then
    let subs' := removeFirstClient clientID e.2
    if subs' = [] then none else some (e.1, subs')
  else some e

/-- `SubscriptionManager.UnsubscribeAll`: remove the client's subscription
from every topic (deleting topics that become empty) and drop the client's
connection entry. -/
def SubscriptionManager.UnsubscribeAll (m : SubscriptionManager) (clientID : String) :
    SubscriptionManager :=
  { subscriptions := m.subscriptions.filterMap (removeClientEntry clientID),
    clients := mapDelete m.clients clientID }

/-- `SubscriptionManager.GetSubscribers`: the topic's current subscriber list
(`nil`, i.e. `[]`, for an unknown topic). -/
def SubscriptionManager.GetSubscribers (m : SubscriptionManager) (topic : String) :
    List Subscription :=
  (mapLookup m.subscriptions topic).getD []

/-- The registry states the relay can actually produce: the empty registry,
closed under the three mutating operations. -/
inductive Reachable : SubscriptionManager → Prop
  | new : Reachable NewSubscriptionManager
  | sub (m : SubscriptionManager) (topic clientID : String) (conn : Nat) (now : Int) :
      Reachable m → Reachable (m.Subscribe topic clientID conn now).1
  | unsub (m : SubscriptionManager) (topic clientID : String) :
      Reachable m → Reachable (m.Unsubscribe topic clientID).1
  | unsubAll (m : SubscriptionManager) (clientID : String) :
      Reachable m → Reachable (m.UnsubscribeAll clientID)

/-- Registry invariant: topic keys are unique, no topic maps to an empty
subscriber list, and within one topic each client appears at most once. -/
def RegistryInvariant (m : SubscriptionManager) : Prop :=
  (m.subscriptions.map Prod.fst).Nodup ∧
  ∀ e ∈ m.subscriptions, e.2 ≠ [] ∧ (e.2.map Subscription.ClientID).Nodup

/-! ## Session model (internal/wallet/session.go) -/

def SessionStatusPending : String := "pending"

def SessionStatusActive : String := "active"

def SessionStatusDisconnected : String := "disconnected"

/-- `Session` (key-pair pointer fields are outside the model; `ClientID` is
the address string derived from the generated key pair). -/
structure Session where
  ID : String
  PairingTopic : String
  SessionTopic : String
  SymKey : String
  ClientID : String
  PeerID : String
  WalletAddress : String
  Status : String
  CreatedAt : Int
  UpdatedAt : Int
  ExpiresAt : Int
deriving DecidableEq

def nanosPerSecond : Int := 1000000000

/-- `Session.Activate`: sets the status to active, unconditionally. -/
def Session.Activate (s : Session) (now : Int) : Session :=
  { s with Status := SessionStatusActive, UpdatedAt := now }

/-- `Session.Disconnect`: sets the status to disconnected, unconditionally. -/
def Session.Disconnect (s : Session) (now : Int) : Session :=
  { s with Status := SessionStatusDisconnected, UpdatedAt := now }

/-- `Session.IsExpired` = `time.Now().After(s.ExpiresAt)` (strict). -/
def Session.IsExpired (s : Session) (now : Int) : Bool :=
  decide (s.ExpiresAt < now)

/-- `Session.GeneratePairingURI`:
`fmt.Sprintf("wc:%s@2?relay-protocol=irn&symKey=%s", s.PairingTopic, s.SymKey)`. -/
def Session.GeneratePairingURI (s : Session) : String :=
  "wc:" ++ s.PairingTopic ++ "@2?relay-protocol=irn&symKey=" ++ s.SymKey

/-! ## Hex and base64 (encoding/hex, encoding/base64 StdEncoding) -/

def hexDigitChar (n : Nat) : Char := "0123456789abcdef".toList.getD n '0'

def hexEncodeByte (b : Nat) : List Char := [hexDigitChar (b / 16), hexDigitChar (b % 16)]

/-- `hex.EncodeToString`. -/
def hexEncode (bytes : List Nat) : String := String.mk (bytes.map hexEncodeByte).flatten

def base64Alphabet : List Char :=
  "ABCDEFGHIJKLMNOPQRSTUVWXYZabcdefghijklmnopqrstuvwxyz0123456789+/".toList

def base64Char (n : Nat) : Char := base64Alphabet.getD n 'A'

/-- Standard base64 encoding of a byte list, three bytes per four characters,
`'='`-padded. -/
def base64EncodeGroups : List Nat → List Char
  | [] => []
  | [b1] => [base64Char (b1 / 4), base64Char (b1 % 4 * 16), '=', '=']
  | [b1, b2] => [base64Char (b1 / 4), base64Char (b1 % 4 * 16 + b2 / 16),
                 base64Char (b2 % 16 * 4), '=']
  | b1 :: b2 :: b3 :: rest =>
      base64Char (b1 / 4) :: base64Char (b1 % 4 * 16 + b2 / 16) ::
      base64Char (b2 % 16 * 4 + b3 / 64) :: base64Char (b3 % 64) ::
      base64EncodeGroups rest

/-- `base64.StdEncoding.EncodeToString`. -/
def base64Encode (bytes : List Nat) : String := String.mk (base64EncodeGroups bytes)

def base64CharValue (c : Char) : Option Nat := base64Alphabet.indexOf? c

/-- Standard base64 decoding: four characters per group, `'='` padding only at
the very end; anything else is an error (`none`). -/
def base64DecodeGroups : List Char → Option (List Nat)
  | [] => some []
  | c1 :: c2 :: c3 :: c4 :: rest =>
    match base64CharValue c1, base64CharValue c2 with
    | some v1, some v2 =>
      if c3 = '=' then
        if c4 = '=' ∧ rest = [] then some [v1 * 4 + v2 / 16] else none
      else
        match base64CharValue c3 with
        | some v3 =>
          if c4 = '=' then
            if rest = [] then some [v1 * 4 + v2 / 16, v2 % 16 * 16 + v3 / 4] else none
          else
            match base64CharValue c4 with
            | some v4 =>
              match base64DecodeGroups rest with
              | some bs =>
                some ((v1 * 4 + v2 / 16) :: (v2 % 16 * 16 + v3 / 4) :: (v3 % 4 * 64 + v4) :: bs)
              | none => none
            | none => none
        | none => none
    | _, _ => none
  | _ => none

/-- `base64.StdEncoding.DecodeString` (Go's decoder skips `\r` and `\n`). -/
def base64Decode (s : String) : Option (List Nat) :=
  base64DecodeGroups (s.toList.filter (fun c => !(c == '\n' || c == '\r')))

/-! ## Crypto wrappers (pkg/utils/crypto.go) -/

/-- The result of a Go call that can return a value, return an error, or
panic. -/
inductive GoResult (α : Type) where
  | ok : α → GoResult α
  | err : String → GoResult α
  | panic : String → GoResult α
deriving DecidableEq

def aesBlockSize : Nat := 16

/-- `cipher.NewGCM` fixes the nonce size at 12 bytes. -/
def gcmStandardNonceSize : Nat := 12

/-- `aes.NewCipher` accepts exactly 16-, 24- or 32-byte keys. -/
def aesKeySizeOK (n : Nat) : Bool := n == 16 || n == 24 || n == 32

/-- `utils.GenerateRandomBytes` over an explicit entropy source: `length`
bytes. -/
def GenerateRandomBytes (entropy : Nat → Nat) (length : Nat) : List Nat :=
  (List.range length).map (fun i => entropy i % 256)

/-- `utils.GenerateRandomHex`: hex string of the given length. -/
def GenerateRandomHex (entropy : Nat → Nat) (length : Nat) : String :=
  hexEncode (GenerateRandomBytes entropy (length / 2))

/-- `utils.GenerateRandomTopic`: 64 hex characters. -/
def GenerateRandomTopic (entropy : Nat → Nat) : String :=
  GenerateRandomHex entropy 64

/-- `utils.GenerateSymmetricKey`: base64 of 32 random bytes. -/
def GenerateSymmetricKey (entropy : Nat → Nat) : String :=
  base64Encode (GenerateRandomBytes entropy 32)

/-- `gcm.Seal(nil, nonce, plaintext, nil)`: the Go standard library panics
unless the nonce has exactly the GCM's nonce size (12 for `cipher.NewGCM`);
otherwise it returns the AEAD core's output. The core itself lives in the Go
standard library, outside this repository, so it is an opaque parameter. -/
def gcmSeal (sealCore : List Nat → List Nat → List Nat) (nonce plaintext : List Nat) :
    GoResult (List Nat) :=
  if nonce.length ≠ gcmStandardNonceSize then
    GoResult.panic "crypto/cipher: incorrect nonce length given to GCM"
  else
    GoResult.ok (sealCore nonce plaintext)

/-- `gcm.Open(nil, nonce, ciphertext, nil)`: same nonce-length panic; the
authenticated-decryption core is an opaque parameter returning `none` when the
authentication tag check fails. -/
def gcmOpen (openCore : List Nat → List Nat → Option (List Nat)) (nonce ciphertext : List Nat) :
    GoResult (List Nat) :=
  if nonce.length ≠ gcmStandardNonceSize then
    GoResult.panic "crypto/cipher: incorrect nonce length given to GCM"
  else
    match openCore nonce ciphertext with
    | some pt => GoResult.ok pt
    | none => GoResult.err "failed to decrypt data: cipher: message authentication failed"

/-- `utils.EncryptWithSymmetricKey`: base64-decode the key, build the AES
cipher, draw a random IV of `aes.BlockSize` (16) bytes, seal with GCM,
prepend the IV, base64-encode. -/
def EncryptWithSymmetricKey (sealCore : List Nat → List Nat → List Nat → List Nat)
    (entropy : Nat → Nat) (data : List Nat) (keyStr : String) : GoResult String :=
  match base64Decode keyStr with
  | none => GoResult.err "invalid symmetric key"
  | some key =>
    if !aesKeySizeOK key.length then
      GoResult.err "failed to create cipher: invalid key size"
    else
      let iv := GenerateRandomBytes entropy aesBlockSize
      match gcmSeal (sealCore key) iv data with
      | GoResult.ok ciphertext => GoResult.ok (base64Encode (iv ++ ciphertext))
      | GoResult.err e => GoResult.err e
      | GoResult.panic msg => GoResult.panic msg

/-- `utils.DecryptWithSymmetricKey`: base64-decode payload and key, build the
cipher, split off a 16-byte IV, open with GCM. -/
def DecryptWithSymmetricKey (openCore : List Nat → List Nat → List Nat → Option (List Nat))
    (encryptedStr keyStr : String) : GoResult (List Nat) :=
  match base64Decode encryptedStr with
  | none => GoResult.err "invalid encrypted data"
  | some encrypted =>
    match base64Decode keyStr with
    | none => GoResult.err "invalid symmetric key"
    | some key =>
      if !aesKeySizeOK key.length then
        GoResult.err "failed to create cipher: invalid key size"
      else if encrypted.length < aesBlockSize then
        GoResult.err "encrypted data too short"
      else
        gcmOpen (openCore key) (encrypted.take aesBlockSize) (encrypted.drop aesBlockSize)

/-! ## Session construction (internal/wallet/session.go) -/

/-- `wallet.NewSession`: fresh id, pairing topic, session topic and symmetric
key from four independent entropy draws; the client key pair is generated by
go-ethereum (outside this repository), so the derived address string is a
parameter. Status starts pending; expiry is 24 hours after creation. -/
def NewSession (entropy : Nat → Nat → Nat) (clientAddressHex : String) (now : Int) : Session :=
  { ID := GenerateRandomHex (entropy 0) 32,
    PairingTopic := GenerateRandomTopic (entropy 1),
    SessionTopic := GenerateRandomTopic (entropy 2),
    SymKey := GenerateSymmetricKey (entropy 3),
    ClientID := clientAddressHex,
    PeerID := "",
    WalletAddress := "",
    Status := SessionStatusPending,
    CreatedAt := now,
    UpdatedAt := now,
    ExpiresAt := now + 24 * 3600 * nanosPerSecond }

/-- `SessionManager`: session id → session. -/
structure SessionManager where
  sessions : List (String × Session)
deriving DecidableEq

/-- `SessionManager.CreateSession`: build a new session and register it. -/
def SessionManager.CreateSession (m : SessionManager) (entropy : Nat → Nat → Nat)
    (clientAddressHex : String) (now : Int) : SessionManager × Session :=
  let s := NewSession entropy clientAddressHex now
  ({ sessions := mapInsert m.sessions s.ID s }, s)

/-! ## Relay message (internal/relay/message.go) -/

/-- `relay.Message`: TTL-bearing envelope. -/
structure Message where
  Topic : String
  Payload : String
  CreatedAt : Int
  ExpiresAt : Int
deriving DecidableEq

/-- Two's-complement wrap into the int64 range [-2^63, 2^63). -/
def int64Wrap (n : Int) : Int :=
  (n + 9223372036854775808) % 18446744073709551616 - 9223372036854775808

/-- `relay.NewMessage`: expiry is creation plus `ttl` seconds. The Go
expression `time.Duration(ttl) * time.Second` is an int64 multiplication, so
the duration wraps for `ttl` above 9223372036 (or below -9223372036);
`time.Time.Add` then applies the wrapped duration. -/
def NewMessage (topic payload : String) (ttl : Int) (now : Int) : Message :=
  { Topic := topic, Payload := payload, CreatedAt := now,
    ExpiresAt := now + int64Wrap (ttl * nanosPerSecond) }

/-- `Message.IsExpired` = `time.Now().After(m.ExpiresAt)` (strict). -/
def Message.IsExpired (m : Message) (now : Int) : Bool :=
  decide (m.ExpiresAt < now)

/-! ## WalletClient.SignMessage (internal/wallet/client.go) -/

/-- The observable side effects `SignMessage` performs, in order: encrypting
the personal_sign request, connecting/subscribing to the session topic, and
writing the publish frame to the relay. -/
inductive WalletEffect where
  | encryptRequest (id : Int) (message : String) (address : String)
  | connectTopic (topic : String)
  | publishMessage (topic : String) (payload : String) (ttl : Int)
deriving DecidableEq

/-- Outcomes of the external calls `SignMessage` makes (crypto library,
websocket dial/subscribe, connection lookup, websocket write). -/
structure WalletEnv where
  encryptResult : Except String String
  connectResult : Except String Unit
  connLookup : Option Nat
  writeResult : Except String Unit

/-- `WalletClient.SignMessage`: reject unless the session is active; then
build and encrypt a personal_sign request (id 1), connect to the session
topic, look up the connection and write a publish frame (id 2, TTL 300s);
on success return the placeholder string the source returns. The effect list
records what was performed before returning. -/
def WalletClient.SignMessage (env : WalletEnv) (session : Session) (message : String) :
    Except String String × List WalletEffect :=
  if session.Status ≠ SessionStatusActive then
    (Except.error "session is not active", [])
  else
    let eff1 := WalletEffect.encryptRequest 1 message session.WalletAddress
    match env.encryptResult with
    | Except.error e => (Except.error ("failed to encrypt request: " ++ e), [eff1])
    | Except.ok encrypted =>
      let eff2 := WalletEffect.connectTopic session.SessionTopic
      match env.connectResult with
      | Except.error e => (Except.error ("failed to connect to session topic: " ++ e), [eff1, eff2])
      | Except.ok _ =>
        match env.connLookup with
        | none => (Except.error "not connected to session topic", [eff1, eff2])
        | some _ =>
          let eff3 := WalletEffect.publishMessage session.SessionTopic encrypted 300
          match env.writeResult with
          | Except.error e =>
            (Except.error ("failed to send publish request: " ++ e), [eff1, eff2, eff3])
          | Except.ok _ =>
            (Except.ok "Signature request sent. Waiting for wallet approval...",
             [eff1, eff2, eff3])

/-! ## JSON values and `encoding/json` decoding into `JSONRPCRequest` -/

/-- A parsed JSON value; numbers keep their literal text, as Go's decoder
does when deciding whether a number fits an `int` field. -/
inductive JValue where
  | null
  | bool (b : Bool)
  | num (literal : String)
  | str (s : String)
  | arr (elems : List JValue)
  | obj (fields : List (String × JValue))

def isWsChar (c : Char) : Bool := c == ' ' || c == '\t' || c == '\n' || c == '\r'

def skipWs : List Char → List Char
  | [] => []
  | c :: rest => if isWsChar c then skipWs rest else c :: rest

def hexVal? (c : Char) : Option Nat :=
  if '0' ≤ c ∧ c ≤ '9' then some (c.toNat - 48)
  else if 'a' ≤ c ∧ c ≤ 'f' then some (c.toNat - 87)
  else if 'A' ≤ c ∧ c ≤ 'F' then some (c.toNat - 55)
  else none

def escChar? (c : Char) : Option Char :=
  if c = '"' then some '"'
  else if c = '\\' then some '\\'
  else if c = '/' then some '/'
  else if c = 'b' then some (Char.ofNat 8)
  else if c = 'f' then some (Char.ofNat 12)
  else if c = 'n' then some '\n'
  else if c = 'r' then some '\r'
  else if c = 't' then some '\t'
  else none

/-- The body of a JSON string after its opening quote: the decoded characters
and the input after the closing quote. -/
def parseStringBody : List Char → Option (List Char × List Char)
  | [] => none
  | '"' :: rest => some ([], rest)
  | '\\' :: 'u' :: h1 :: h2 :: h3 :: h4 :: rest =>
    (match hexVal? h1, hexVal? h2, hexVal? h3, hexVal? h4 with
     | some a, some b, some c, some d =>
       match parseStringBody rest with
       | some (s, r) => some (Char.ofNat (((a * 16 + b) * 16 + c) * 16 + d) :: s, r)
       | none => none
     | _, _, _, _ => none)
  | '\\' :: e :: rest =>
    (match escChar? e with
     | some ch =>
       match parseStringBody rest with
       | some (s, r) => some (ch :: s, r)
       | none => none
     | none => none)
  | c :: rest =>
    if c.toNat < 32 then none
    else
      match parseStringBody rest with
      | some (s, r) => some (c :: s, r)
      | none => none

/-- The integer part of a JSON number: `0`, or a nonzero digit then digits. -/
def parseIntPart : List Char → Option (List Char × List Char)
  | [] => none
  | '0' :: rest => some (['0'], rest)
  | c :: rest =>
    if c.isDigit then
      match rest.span Char.isDigit with
      | (ds, r) => some (c :: ds, r)
    else none

def parseFracPart : List Char → Option (List Char × List Char)
  | '.' :: rest =>
    (match rest.span Char.isDigit with
     | (ds, r) => if ds.isEmpty then none else some ('.' :: ds, r))
  | cs => some ([], cs)

def parseExpPart : List Char → Option (List Char × List Char)
  | [] => some ([], [])
  | e :: rest =>
    if e = 'e' ∨ e = 'E' then
      match rest with
      | s :: rest2 =>
        if s = '+' ∨ s = '-' then
          match rest2.span Char.isDigit with
          | (ds, r) => if ds.isEmpty then none else some (e :: s :: ds, r)
        else
          match rest.span Char.isDigit with
          | (ds, r) => if ds.isEmpty then none else some (e :: ds, r)
      | [] => none
    else some ([], e :: rest)

/-- A JSON number starting at `cs`, kept as its literal text. -/
def parseNumber (cs : List Char) : Option (JValue × List Char) :=
  let start := match cs with
    | '-' :: r => (['-'], r)
    | _ => (([] : List Char), cs)
  match parseIntPart start.2 with
  | none => none
  | some (ip, cs2) =>
    match parseFracPart cs2 with
    | none => none
    | some (fp, cs3) =>
      match parseExpPart cs3 with
      | none => none
      | some (ep, cs4) => some (JValue.num (String.mk (start.1 ++ ip ++ fp ++ ep)), cs4)

mutual

/-- One JSON value (fuel-bounded recursive descent; the fuel passed by
`ParseJSONRPCRequest` always suffices). -/
def parseValue : Nat → List Char → Option (JValue × List Char)
  | 0, _ => none
  | fuel + 1, cs =>
    match skipWs cs with
    | [] => none
    | 'n' :: 'u' :: 'l' :: 'l' :: rest => some (JValue.null, rest)
    | 't' :: 'r' :: 'u' :: 'e' :: rest => some (JValue.bool true, rest)
    | 'f' :: 'a' :: 'l' :: 's' :: 'e' :: rest => some (JValue.bool false, rest)
    | '"' :: rest =>
      (match parseStringBody rest with
       | some (s, r) => some (JValue.str (String.mk s), r)
       | none => none)
    | '[' :: rest =>
      (match skipWs rest with
       | ']' :: r => some (JValue.arr [], r)
       | cs' =>
         match parseElems fuel cs' with
         | some (vs, r) => some (JValue.arr vs, r)
         | none => none)
    | '{' :: rest =>
      (match skipWs rest with
       | '}' :: r => some (JValue.obj [], r)
       | cs' =>
         match parseFields fuel cs' with
         | some (fs, r) => some (JValue.obj fs, r)
         | none => none)
    | c :: rest =>
      if c = '-' ∨ c.isDigit then parseNumber (c :: rest) else none

/-- Comma-separated array elements up to the closing bracket. -/
def parseElems : Nat → List Char → Option (List JValue × List Char)
  | 0, _ => none
  | fuel + 1, cs =>
    match parseValue fuel cs with
    | none => none
    | some (v, r) =>
      match skipWs r with
      | ',' :: r2 =>
        (match parseElems fuel r2 with
         | some (vs, r3) => some (v :: vs, r3)
         | none => none)
      | ']' :: r2 => some ([v], r2)
      | _ => none

/-- Comma-separated object members up to the closing brace. -/
def parseFields : Nat → List Char → Option (List (String × JValue) × List Char)
  | 0, _ => none
  | fuel + 1, cs =>
    match skipWs cs with
    | '"' :: rest =>
      (match parseStringBody rest with
       | none => none
       | some (k, r) =>
         match skipWs r with
         | ':' :: r2 =>
           (match parseValue fuel r2 with
            | none => none
            | some (v, r3) =>
              match skipWs r3 with
              | ',' :: r4 =>
                (match parseFields fuel r4 with
                 | some (fs, r5) => some ((String.mk k, v) :: fs, r5)
                 | none => none)
              | '}' :: r4 => some ([(String.mk k, v)], r4)
              | _ => none)
         | _ => none)
    | _ => none

end

/-! ## JSON-RPC frames (internal/relay/message.go) -/

/-- `relay.JSONRPCRequest` (`Params` is `any`, i.e. an arbitrary JSON
value). -/
structure JSONRPCRequest where
  ID : Int
  JSONRPC : String
  Method : String
  Params : JValue

/-- The zero value `json.Unmarshal` starts from. -/
def emptyJSONRPCRequest : JSONRPCRequest := ⟨0, "", "", JValue.null⟩

/-- ASCII-lowercase a string (Go's JSON decoder matches field names
case-insensitively). -/
def lowerAscii (s : String) : String := String.mk (s.toList.map Char.toLower)

/-- The decimal integer literals Go's decoder accepts for an `int` field. -/
def intLiteral? (s : String) : Option Int :=
  match s.toList with
  | '-' :: ds =>
    if ds ≠ [] ∧ ds.all Char.isDigit then
      some (-(Int.ofNat (ds.foldl (fun acc c => acc * 10 + (c.toNat - 48)) 0)))
    else none
  | ds =>
    if ds ≠ [] ∧ ds.all Char.isDigit then
      some (Int.ofNat (ds.foldl (fun acc c => acc * 10 + (c.toNat - 48)) 0))
    else none

/-- `json.Unmarshal` of an object's members into `JSONRPCRequest`: field
names match case-insensitively, later duplicates overwrite, `null` leaves a
field untouched, a type mismatch is an error, unknown members are ignored. -/
def decodeRequestFields : List (String × JValue) → JSONRPCRequest → Option JSONRPCRequest
  | [], r => some r
  | (k, v) :: rest, r =>
    let kl := lowerAscii k
    if kl = "id" then
      match v with
      | JValue.num lit =>
        (match intLiteral? lit with
         | some n => decodeRequestFields rest { r with ID := n }
         | none => none)
      | JValue.null => decodeRequestFields rest r
      | _ => none
    else if kl = "jsonrpc" then
      match v with
      | JValue.str s => decodeRequestFields rest { r with JSONRPC := s }
      | JValue.null => decodeRequestFields rest r
      | _ => none
    else if kl = "method" then
      match v with
      | JValue.str s => decodeRequestFields rest { r with Method := s }
      | JValue.null => decodeRequestFields rest r
      | _ => none
    else if kl = "params" then
      decodeRequestFields rest { r with Params := v }
    else decodeRequestFields rest r

/-- `json.Unmarshal` into a struct accepts only a JSON object or `null` at
top level. -/
def decodeRequestTop : JValue → Option JSONRPCRequest
  | JValue.null => some emptyJSONRPCRequest
  | JValue.obj fields => decodeRequestFields fields emptyJSONRPCRequest
  | _ => none

/-- `relay.ParseJSONRPCRequest`: `json.Unmarshal([]byte(data), &request)`;
`none` is a non-nil error (malformed syntax, wrong top-level type, or a field
type mismatch). -/
def ParseJSONRPCRequest (data : String) : Option JSONRPCRequest :=
  let cs := data.toList
  match parseValue (2 * cs.length + 4) cs with
  | none => none
  | some (v, rest) => if skipWs rest = [] then decodeRequestTop v else none

/-- `relay.JSONRPCError`. -/
structure JSONRPCError where
  Code : Int
  Message : String

/-- `relay.JSONRPCResponse`. -/
structure JSONRPCResponse where
  ID : Int
  JSONRPC : String
  Result : Option JValue
  Error : Option JSONRPCError

/-- `relay.NewJSONRPCResponse`. -/
def NewJSONRPCResponse (id : Int) (result : JValue) : JSONRPCResponse :=
  ⟨id, "2.0", some result, none⟩

/-- `relay.NewJSONRPCErrorResponse`. -/
def NewJSONRPCErrorResponse (id code : Int) (message : String) : JSONRPCResponse :=
  ⟨id, "2.0", none, some ⟨code, message⟩⟩

/-! ## Relay request handling (internal/relay/relay.go) -/

/-- `relay.SubscribeParams`. -/
structure SubscribeParams where
  Topic : String
deriving DecidableEq

/-- `relay.PublishParams`. -/
structure PublishParams where
  Topic : String
  Message : String
  TTL : Int
deriving DecidableEq

/-- `relay.UnsubscribeParams`. -/
structure UnsubscribeParams where
  Topic : String
deriving DecidableEq

/-- `json.Marshal(request.Params)` then `json.Unmarshal` into
`SubscribeParams`: the members of an object, decoded with the same rules as
above. -/
def unmarshalSubscribeFields : List (String × JValue) → SubscribeParams → Option SubscribeParams
  | [], p => some p
  | (k, v) :: rest, p =>
    if lowerAscii k = "topic" then
      match v with
      | JValue.str s => unmarshalSubscribeFields rest { p with Topic := s }
      | JValue.null => unmarshalSubscribeFields rest p
      | _ => none
    else unmarshalSubscribeFields rest p

def unmarshalSubscribeParams : JValue → Option SubscribeParams
  | JValue.null => some { Topic := "" }
  | JValue.obj fields => unmarshalSubscribeFields fields { Topic := "" }
  | _ => none

def unmarshalPublishFields : List (String × JValue) → PublishParams → Option PublishParams
  | [], p => some p
  | (k, v) :: rest, p =>
    let kl := lowerAscii k
    if kl = "topic" then
      match v with
      | JValue.str s => unmarshalPublishFields rest { p with Topic := s }
      | JValue.null => unmarshalPublishFields rest p
      | _ => none
    else if kl = "message" then
      match v with
      | JValue.str s => unmarshalPublishFields rest { p with Message := s }
      | JValue.null => unmarshalPublishFields rest p
      | _ => none
    else if kl = "ttl" then
      match v with
      | JValue.num lit =>
        (match intLiteral? lit with
         | some n => unmarshalPublishFields rest { p with TTL := n }
         | none => none)
      | JValue.null => unmarshalPublishFields rest p
      | _ => none
    else unmarshalPublishFields rest p

def unmarshalPublishParams : JValue → Option PublishParams
  | JValue.null => some { Topic := "", Message := "", TTL := 0 }
  | JValue.obj fields => unmarshalPublishFields fields { Topic := "", Message := "", TTL := 0 }
  | _ => none

def unmarshalUnsubscribeFields :
    List (String × JValue) → UnsubscribeParams → Option UnsubscribeParams
  | [], p => some p
  | (k, v) :: rest, p =>
    if lowerAscii k = "topic" then
      match v with
      | JValue.str s => unmarshalUnsubscribeFields rest { p with Topic := s }
      | JValue.null => unmarshalUnsubscribeFields rest p
      | _ => none
    else unmarshalUnsubscribeFields rest p

def unmarshalUnsubscribeParams : JValue → Option UnsubscribeParams
  | JValue.null => some { Topic := "" }
  | JValue.obj fields => unmarshalUnsubscribeFields fields { Topic := "" }
  | _ => none

/-- The relay server state a single request can touch: the subscription
registry and the publish queue. -/
structure RelayState where
  subscriptionManager : SubscriptionManager
  messageQueue : List Message

def emptyRelayState : RelayState := ⟨NewSubscriptionManager, []⟩

/-- `RelayServer.handleSubscribe`. -/
def handleSubscribe (st : RelayState) (clientID : String) (conn : Nat) (now : Int)
    (request : JSONRPCRequest) : JSONRPCResponse × RelayState :=
  match unmarshalSubscribeParams request.Params with
  | none => (NewJSONRPCErrorResponse request.ID (-32602) "Invalid params", st)
  | some params =>
    let r := st.subscriptionManager.Subscribe params.Topic clientID conn now
    match r.2 with
    | some _ =>
      (NewJSONRPCErrorResponse request.ID (-32000) "Subscription error",
       { st with subscriptionManager := r.1 })
    | none =>
      (NewJSONRPCResponse request.ID (JValue.bool true),
       { st with subscriptionManager := r.1 })

/-- `RelayServer.handlePublish`: build the message and enqueue it. -/
def handlePublish (st : RelayState) (now : Int) (request : JSONRPCRequest) :
    JSONRPCResponse × RelayState :=
  match unmarshalPublishParams request.Params with
  | none => (NewJSONRPCErrorResponse request.ID (-32602) "Invalid params", st)
  | some params =>
    let message := NewMessage params.Topic params.Message params.TTL now
    (NewJSONRPCResponse request.ID (JValue.bool true),
     { st with messageQueue := st.messageQueue ++ [message] })

/-- `RelayServer.handleUnsubscribe`. -/
def handleUnsubscribe (st : RelayState) (clientID : String) (request : JSONRPCRequest) :
    JSONRPCResponse × RelayState :=
  match unmarshalUnsubscribeParams request.Params with
  | none => (NewJSONRPCErrorResponse request.ID (-32602) "Invalid params", st)
  | some params =>
    let r := st.subscriptionManager.Unsubscribe params.Topic clientID
    match r.2 with
    | some _ =>
      (NewJSONRPCErrorResponse request.ID (-32000) "Unsubscription error",
       { st with subscriptionManager := r.1 })
    | none =>
      (NewJSONRPCResponse request.ID (JValue.bool true),
       { st with subscriptionManager := r.1 })

/-- `RelayServer.handleRequest`: dispatch on the method name; an unknown
method is answered with code -32601 at the request's own id. -/
def handleRequest (st : RelayState) (clientID : String) (conn : Nat) (now : Int)
    (request : JSONRPCRequest) : JSONRPCResponse × RelayState :=
  if request.Method = "subscribe" then handleSubscribe st clientID conn now request
  else if request.Method = "publish" then handlePublish st now request
  else if request.Method = "unsubscribe" then handleUnsubscribe st clientID request
  else (NewJSONRPCErrorResponse request.ID (-32601) "Method not found", st)

/-- Whether the read loop of `handleConnection` keeps the connection open
after processing one frame. -/
inductive LoopAction where
  | keepOpen
  | closeConn
deriving DecidableEq

/-- One iteration of `RelayServer.handleConnection`'s read loop on a
successfully read frame: a frame that does not parse is answered with a
parse error addressed to id 0 and the loop continues; otherwise the request
is dispatched and the loop continues. -/
def handleFrame (st : RelayState) (clientID : String) (conn : Nat) (now : Int)
    (frame : String) : JSONRPCResponse × LoopAction × RelayState :=
  match ParseJSONRPCRequest frame with
  | none => (NewJSONRPCErrorResponse 0 (-32700) "Parse error", LoopAction.keepOpen, st)
  | some request =>
    let r := handleRequest st clientID conn now request
    (r.1, LoopAction.keepOpen, r.2)

/-! ## Concrete fixtures used by counterexamples and witnesses -/

/-- A concrete pending session (the randomly generated fields are fixed
arbitrary strings of the right shape). -/
def testPendingSession : Session :=
  { ID := "00112233445566778899aabbccddeeff00112233445566778899aabbccddeeff",
    PairingTopic := "aaaaaaaaaaaaaaaaaaaaaaaaaaaaaaaaaaaaaaaaaaaaaaaaaaaaaaaaaaaaaaaa",
    SessionTopic := "bbbbbbbbbbbbbbbbbbbbbbbbbbbbbbbbbbbbbbbbbbbbbbbbbbbbbbbbbbbbbbbb",
    SymKey := "AAAAAAAAAAAAAAAAAAAAAAAAAAAAAAAAAAAAAAAAAAA=",
    ClientID := "0x0000000000000000000000000000000000000000",
    PeerID := "",
    WalletAddress := "",
    Status := SessionStatusPending,
    CreatedAt := 0,
    UpdatedAt := 0,
    ExpiresAt := 24 * 3600 * nanosPerSecond }

/-- Base64 of 32 zero bytes: a valid 256-bit symmetric key string. -/
def zeroKeyB64 : String := "AAAAAAAAAAAAAAAAAAAAAAAAAAAAAAAAAAAAAAAAAAA="

/-- A registry with two clients subscribed to the topic t1. -/
def twoClientRegistry : SubscriptionManager :=
  ((NewSubscriptionManager.Subscribe "t1" "alice" 1 0).1.Subscribe "t1" "bob" 2 0).1

/-- Lowercase hexadecimal digits, as `hex.EncodeToString` emits them. -/
def isHexDigitChar (c : Char) : Bool := c.isDigit || ('a' ≤ c && c ≤ 'f')

/-- A concrete well-formed subscribe request frame. -/
def testSubscribeRequest : JSONRPCRequest :=
  ⟨7, "2.0", "subscribe", JValue.obj [("topic", JValue.str "deadbeef")]⟩

/-!
# Theorems

Helper lemmas about the Go map model and the registry invariant, then one
theorem per claim (with its witness or counterexample where required).
-/

/-! ## Go map lemmas -/

theorem mapLookup_cons {α : Type} (k' : String) (v' : α) (rest : List (String × α)) (k : String) :
    mapLookup ((k', v') :: rest) k = if k' = k then some v' else mapLookup rest k := rfl

theorem mapLookup_mapInsert_self {α : Type} (l : List (String × α)) (k : String) (v : α) :
    mapLookup (mapInsert l k v) k = some v := by
  induction l with
  | nil => simp [mapInsert, mapLookup]
  | cons e rest ih =>
    obtain ⟨k', v'⟩ := e
    by_cases h : k' = k
    · subst h
      simp [mapInsert, mapLookup]
    · simp [mapInsert, mapLookup, h, ih]

theorem mapLookup_mapInsert_ne {α : Type} (l : List (String × α)) (k k' : String) (v : α)
    (h : k ≠ k') : mapLookup (mapInsert l k v) k' = mapLookup l k' := by
  induction l with
  | nil => simp [mapInsert, mapLookup, h]
  | cons e rest ih =>
    obtain ⟨k'', v''⟩ := e
    by_cases h2 : k'' = k
    · subst h2
      simp [mapInsert, mapLookup, h]
    · simp [mapInsert, mapLookup, h2, ih]

theorem mapDelete_sublist {α : Type} (l : List (String × α)) (k : String) :
    (mapDelete l k).Sublist l := by
  induction l with
  | nil => simp [mapDelete]
  | cons e rest ih =>
    obtain ⟨k', v'⟩ := e
    by_cases h : k' = k
    · simpa [mapDelete, h] using ih.trans (List.sublist_cons_self _ _)
    · simpa [mapDelete, h] using ih.cons₂ (k', v')

theorem mapLookup_mapDelete_self {α : Type} (l : List (String × α)) (k : String) :
    mapLookup (mapDelete l k) k = none := by
  induction l with
  | nil => simp [mapDelete, mapLookup]
  | cons e rest ih =>
    obtain ⟨k', v'⟩ := e
    by_cases h : k' = k
    · simpa [mapDelete, h] using ih
    · simpa [mapDelete, h, mapLookup] using ih

theorem mapLookup_mapDelete_ne {α : Type} (l : List (String × α)) (k k' : String)
    (h : k' ≠ k) : mapLookup (mapDelete l k) k' = mapLookup l k' := by
  induction l with
  | nil => simp [mapDelete, mapLookup]
  | cons e rest ih =>
    obtain ⟨k'', v''⟩ := e
    by_cases h2 : k'' = k
    · subst h2
      simp [mapDelete, mapLookup, Ne.symm h, ih]
    · simp [mapDelete, mapLookup, h2, ih]

theorem mapLookup_mem {α : Type} {l : List (String × α)} {k : String} {v : α}
    (h : mapLookup l k = some v) : (k, v) ∈ l := by
  induction l with
  | nil => simp [mapLookup] at h
  | cons e rest ih =>
    obtain ⟨k', v'⟩ := e
    rw [mapLookup_cons] at h
    by_cases h2 : k' = k
    · subst h2
      simp at h
      simp [h]
    · simp [h2] at h
      exact List.mem_cons_of_mem _ (ih h)

theorem mapLookup_eq_none_of_not_mem_keys {α : Type} {l : List (String × α)} {k : String}
    (h : k ∉ l.map Prod.fst) : mapLookup l k = none := by
  induction l with
  | nil => rfl
  | cons e rest ih =>
    obtain ⟨k', v'⟩ := e
    simp only [List.map_cons, List.mem_cons] at h
    push_neg at h
    rw [mapLookup_cons, if_neg (fun hh => h.1 hh.symm), ih h.2]

theorem mem_mapInsert {α : Type} {l : List (String × α)} {k : String} {v : α}
    {e : String × α} (h : e ∈ mapInsert l k v) : e ∈ l ∨ e = (k, v) := by
  induction l with
  | nil => simpa [mapInsert] using h
  | cons e' rest ih =>
    obtain ⟨k', v'⟩ := e'
    by_cases h2 : k' = k
    · subst h2
      simp [mapInsert] at h
      rcases h with h | h
      · right; simp [h]
      · left; exact List.mem_cons_of_mem _ h
    · simp [mapInsert, h2] at h
      rcases h with h | h
      · left; simp [h]
      · rcases ih h with h3 | h3
        · left; exact List.mem_cons_of_mem _ h3
        · right; exact h3

theorem mem_keys_mapInsert {α : Type} {l : List (String × α)} {k a : String} {v : α}
    (h : a ∈ (mapInsert l k v).map Prod.fst) : a ∈ l.map Prod.fst ∨ a = k := by
  simp only [List.mem_map] at h
  obtain ⟨e, he, rfl⟩ := h
  rcases mem_mapInsert he with h2 | h2
  · left
    exact List.mem_map_of_mem Prod.fst h2
  · right
    simp [h2]

theorem nodup_keys_mapInsert {α : Type} {l : List (String × α)} {k : String} {v : α}
    (h : (l.map Prod.fst).Nodup) : ((mapInsert l k v).map Prod.fst).Nodup := by
  induction l with
  | nil => simp [mapInsert]
  | cons e rest ih =>
    obtain ⟨k', v'⟩ := e
    simp only [List.map_cons, List.nodup_cons] at h
    by_cases h2 : k' = k
    · subst h2
      simpa [mapInsert] using h
    · simp only [mapInsert, h2, if_false, List.map_cons, List.nodup_cons]
      refine ⟨fun hmem => ?_, ih h.2⟩
      rcases mem_keys_mapInsert hmem with h3 | h3
      · exact h.1 h3
      · exact h2 h3

/-! ## Registry invariant lemmas -/

theorem removeFirstClient_sublist (c : String) (l : List Subscription) :
    (removeFirstClient c l).Sublist l := by
  induction l with
  | nil => simp [removeFirstClient]
  | cons s rest ih =>
    by_cases h : s.ClientID = c
    · simp only [removeFirstClient, h, if_true]
      exact List.sublist_cons_self s rest
    · simpa [removeFirstClient, h] using ih.cons₂ s

theorem removeFirstClient_eq_filter {c : String} {l : List Subscription}
    (h : (l.map Subscription.ClientID).Nodup) :
    removeFirstClient c l = l.filter (fun s => s.ClientID != c) := by
  induction l with
  | nil => rfl
  | cons s rest ih =>
    simp only [List.map_cons, List.nodup_cons] at h
    by_cases hs : s.ClientID = c
    · have hrest : rest.filter (fun s => s.ClientID != c) = rest := by
        refine List.filter_eq_self.mpr fun x hx => ?_
        have hxne : x.ClientID ≠ c := by
          intro hxc
          apply h.1
          have hmem : x.ClientID ∈ rest.map Subscription.ClientID :=
            List.mem_map_of_mem Subscription.ClientID hx
          rwa [hxc, ← hs] at hmem
        simpa [bne_iff_ne] using hxne
      simp [removeFirstClient, hs, List.filter_cons, hrest]
    · simp [removeFirstClient, hs, List.filter_cons, bne_iff_ne, ih h.2]

theorem filter_ne_of_not_any {c : String} {v : List Subscription}
    (h : ¬v.any (fun s => s.ClientID == c) = true) :
    v.filter (fun s => s.ClientID != c) = v := by
  have hall : ∀ x ∈ v, ¬x.ClientID = c := by simpa using h
  refine List.filter_eq_self.mpr fun x hx => ?_
  simpa [bne_iff_ne] using hall x hx

theorem removeClientEntry_fst {c : String} {e e' : String × List Subscription}
    (h : removeClientEntry c e = some e') : e'.1 = e.1 := by
  unfold removeClientEntry at h
  by_cases hany : e.2.any (fun s => s.ClientID == c)
  · simp only [hany, if_true] at h
    by_cases hempty : removeFirstClient c e.2 = []
    · simp [hempty] at h
    · simp [hempty] at h
      simp [← h]
  · simp only [hany] at h
    simp at h
    simp [← h]

theorem keys_filterMap_sublist (c : String) (l : List (String × List Subscription)) :
    ((l.filterMap (removeClientEntry c)).map Prod.fst).Sublist (l.map Prod.fst) := by
  induction l with
  | nil => simp
  | cons e rest ih =>
    cases h : removeClientEntry c e with
    | none =>
      simp only [List.filterMap_cons, h, List.map_cons]
      exact ih.cons e.1
    | some e' =>
      simp only [List.filterMap_cons, h, List.map_cons, removeClientEntry_fst h]
      exact ih.cons₂ e.1

theorem getSubscribers_filterMap (l : List (String × List Subscription)) (c t : String)
    (hkeys : (l.map Prod.fst).Nodup)
    (hent : ∀ e ∈ l, (e.2.map Subscription.ClientID).Nodup) :
    (mapLookup (l.filterMap (removeClientEntry c)) t).getD [] =
      ((mapLookup l t).getD []).filter (fun s => s.ClientID != c) := by
  induction l with
  | nil => simp [mapLookup]
  | cons e rest ih =>
    obtain ⟨k, v⟩ := e
    simp only [List.map_cons, List.nodup_cons] at hkeys
    have hv : (v.map Subscription.ClientID).Nodup := hent (k, v) (by simp)
    have hrest : ∀ e ∈ rest, (e.2.map Subscription.ClientID).Nodup :=
      fun e he => hent e (List.mem_cons_of_mem _ he)
    have ihr := ih hkeys.2 hrest
    by_cases hany : v.any (fun s => s.ClientID == c)
    · by_cases hempty : removeFirstClient c v = []
      · simp only [List.filterMap_cons, removeClientEntry, hany, if_true, hempty]
        by_cases hk : k = t
        · subst hk
          have hnone : mapLookup (rest.filterMap (removeClientEntry c)) k = none := by
            refine mapLookup_eq_none_of_not_mem_keys fun hmem => ?_
            exact hkeys.1 ((keys_filterMap_sublist c rest).subset hmem)
          rw [hnone]
          have : v.filter (fun s => s.ClientID != c) = [] := by
            rw [← removeFirstClient_eq_filter hv, hempty]
          simp [mapLookup_cons, this]
        · simpa [mapLookup_cons, hk] using ihr
      · simp only [List.filterMap_cons, removeClientEntry, hany, if_true, hempty]
        by_cases hk : k = t
        · subst hk
          simp [mapLookup_cons, removeFirstClient_eq_filter hv]
        · simpa [mapLookup_cons, hk] using ihr
    · simp only [List.filterMap_cons, removeClientEntry, hany]
      by_cases hk : k = t
      · subst hk
        simp [mapLookup_cons, filter_ne_of_not_any hany]
      · simpa [mapLookup_cons, hk] using ihr

theorem registryInvariant_new : RegistryInvariant NewSubscriptionManager := by
  constructor <;> simp [NewSubscriptionManager]

theorem registryInvariant_subscribe (m : SubscriptionManager) (topic clientID : String)
    (conn : Nat) (now : Int) (h : RegistryInvariant m) :
    RegistryInvariant (m.Subscribe topic clientID conn now).1 := by
  obtain ⟨hkeys, hent⟩ := h
  unfold SubscriptionManager.Subscribe
  by_cases hany : ((mapLookup m.subscriptions topic).getD []).any (fun s => s.ClientID == clientID)
  · simpa [hany] using ⟨hkeys, hent⟩
  · simp only [hany, if_false, Bool.false_eq_true]
    refine ⟨nodup_keys_mapInsert hkeys, fun e he => ?_⟩
    rcases mem_mapInsert he with h2 | h2
    · exact hent e h2
    · subst h2
      refine ⟨by simp, ?_⟩
      cases hl : mapLookup m.subscriptions topic with
      | none => simp [hl]
      | some v =>
        have hvn : (v.map Subscription.ClientID).Nodup := (hent (topic, v) (mapLookup_mem hl)).2
        have hnotin : clientID ∉ v.map Subscription.ClientID := by
          intro hmem
          obtain ⟨s, hs, hsid⟩ := List.mem_map.mp hmem
          rw [hl] at hany
          exact hany (List.any_eq_true.mpr ⟨s, by simpa using hs, by simp [hsid]⟩)
        simp only [hl, Option.getD_some, List.map_append, List.map_cons, List.map_nil]
        rw [List.nodup_append]
        refine ⟨hvn, by simp, fun a ha hb => ?_⟩
        simp only [List.mem_cons, List.not_mem_nil, or_false] at hb
        subst hb
        exact hnotin ha

theorem registryInvariant_unsubscribe (m : SubscriptionManager) (topic clientID : String)
    (h : RegistryInvariant m) : RegistryInvariant (m.Unsubscribe topic clientID).1 := by
  obtain ⟨hkeys, hent⟩ := h
  unfold SubscriptionManager.Unsubscribe
  cases hl : mapLookup m.subscriptions topic with
  | none => simpa using ⟨hkeys, hent⟩
  | some v =>
    by_cases hany : v.any (fun s => s.ClientID == clientID)
    · by_cases hempty : removeFirstClient clientID v = []
      · simp only [hany, if_true, hempty]
        refine ⟨?_, fun e he => hent e ((mapDelete_sublist m.subscriptions topic).subset he)⟩
        exact ((mapDelete_sublist m.subscriptions topic).map Prod.fst).nodup hkeys
      · simp only [hany, if_true, hempty, if_false]
        refine ⟨nodup_keys_mapInsert hkeys, fun e he => ?_⟩
        rcases mem_mapInsert he with h2 | h2
        · exact hent e h2
        · subst h2
          refine ⟨hempty, ?_⟩
          exact ((removeFirstClient_sublist clientID v).map Subscription.ClientID).nodup
            (hent (topic, v) (mapLookup_mem hl)).2
    · simpa [hany] using ⟨hkeys, hent⟩

theorem registryInvariant_unsubscribeAll (m : SubscriptionManager) (clientID : String)
    (h : RegistryInvariant m) : RegistryInvariant (m.UnsubscribeAll clientID) := by
  obtain ⟨hkeys, hent⟩ := h
  refine ⟨(keys_filterMap_sublist clientID m.subscriptions).nodup hkeys, fun e he => ?_⟩
  simp only [SubscriptionManager.UnsubscribeAll, List.mem_filterMap] at he
  obtain ⟨a, ha, hfa⟩ := he
  unfold removeClientEntry at hfa
  by_cases hany : a.2.any (fun s => s.ClientID == clientID)
  · simp only [hany, if_true] at hfa
    by_cases hempty : removeFirstClient clientID a.2 = []
    · simp [hempty] at hfa
    · simp only [hempty, if_false, Option.some.injEq] at hfa
      subst hfa
      exact ⟨hempty,
        ((removeFirstClient_sublist clientID a.2).map Subscription.ClientID).nodup (hent a ha).2⟩
  · simp only [hany] at hfa
    simp at hfa
    subst hfa
    exact hent a ha

theorem reachable_invariant (m : SubscriptionManager) (h : Reachable m) :
    RegistryInvariant m := by
  induction h with
  | new => exact registryInvariant_new
  | sub m topic clientID conn now _ ih =>
    exact registryInvariant_subscribe m topic clientID conn now ih
  | unsub m topic clientID _ ih => exact registryInvariant_unsubscribe m topic clientID ih
  | unsubAll m clientID _ ih => exact registryInvariant_unsubscribeAll m clientID ih

theorem twoClientRegistry_reachable : Reachable twoClientRegistry :=
  Reachable.sub _ _ _ _ _ (Reachable.sub _ _ _ _ _ Reachable.new)

/-! ## Claim C4 -/

/-- C4: `Subscribe` is idempotent — a second `Subscribe(T,C,conn)` leaves the
registry state exactly as one call does and returns success (`nil` error) —
and in every reachable registry state there is at most one subscription per
(topic, client) pair: topic keys are unique and within each topic's list the
client ids are pairwise distinct. -/
theorem subscribe_idempotent_and_unique :
    (∀ (m : SubscriptionManager) (topic clientID : String) (conn : Nat) (now now' : Int),
       (m.Subscribe topic clientID conn now).1.Subscribe topic clientID conn now' =
         ((m.Subscribe topic clientID conn now).1, none)) ∧
    (∀ m : SubscriptionManager, Reachable m →
       (m.subscriptions.map Prod.fst).Nodup ∧
       ∀ e ∈ m.subscriptions, (e.2.map Subscription.ClientID).Nodup) := by
  constructor
  · intro m topic clientID conn now now'
    by_cases hany :
        ((mapLookup m.subscriptions topic).getD []).any (fun s => s.ClientID == clientID)
    · simp [SubscriptionManager.Subscribe, hany]
    · simp [SubscriptionManager.Subscribe, hany, mapLookup_mapInsert_self, List.any_append]
  · intro m h
    obtain ⟨hk, he⟩ := reachable_invariant m h
    exact ⟨hk, fun e hm => (he e hm).2⟩

/-- Witness for C4 at a concrete registry: subscribing twice from the empty
registry equals subscribing once (with a `nil` error returned). -/
theorem subscribe_idempotent_and_unique_witness :
    (NewSubscriptionManager.Subscribe "t1" "alice" 1 0).1.Subscribe "t1" "alice" 1 5 =
      ((NewSubscriptionManager.Subscribe "t1" "alice" 1 0).1, none) :=
  subscribe_idempotent_and_unique.1 NewSubscriptionManager "t1" "alice" 1 0 5

/-! ## Claim C5 -/

/-- C5: `UnsubscribeAll(C1)` removes C1's subscription from every topic and
leaves every other client's subscriptions unchanged, in order: for every
topic, the subscriber list afterwards is exactly the previous list with C1's
entries filtered out. -/
theorem unsubscribeAll_removes_only_client :
    ∀ (m : SubscriptionManager) (clientID : String), Reachable m →
      ∀ topic : String,
        (m.UnsubscribeAll clientID).GetSubscribers topic =
          (m.GetSubscribers topic).filter (fun s => s.ClientID != clientID) := by
  intro m c h t
  obtain ⟨hkeys, hent⟩ := reachable_invariant m h
  show (mapLookup (m.subscriptions.filterMap (removeClientEntry c)) t).getD [] = _
  exact getSubscribers_filterMap m.subscriptions c t hkeys (fun e he => (hent e he).2)

/-- Witness for C5: in a registry where alice and bob share topic t1,
removing alice keeps exactly bob's subscription. -/
theorem unsubscribeAll_removes_only_client_witness :
    (twoClientRegistry.UnsubscribeAll "alice").GetSubscribers "t1" =
      (twoClientRegistry.GetSubscribers "t1").filter (fun s => s.ClientID != "alice") :=
  unsubscribeAll_removes_only_client twoClientRegistry "alice" twoClientRegistry_reachable "t1"

/-! ## Claim C9 -/

/-- C9: `Unsubscribe(topic, clientID)` removes the matching subscription,
removes the topic's entry entirely when that leaves the subscriber list
empty, leaves every other topic untouched, returns success (`nil`) always,
and is a no-op when the client was not subscribed; and in every reachable
registry state no topic key maps to an empty subscriber list. -/
theorem unsubscribe_behavior :
    (∀ (m : SubscriptionManager) (topic clientID : String), Reachable m →
       mapLookup (m.Unsubscribe topic clientID).1.subscriptions topic =
         (if (m.GetSubscribers topic).filter (fun s => s.ClientID != clientID) = [] then none
          else some ((m.GetSubscribers topic).filter (fun s => s.ClientID != clientID))) ∧
       (∀ t' : String, t' ≠ topic →
          mapLookup (m.Unsubscribe topic clientID).1.subscriptions t' =
            mapLookup m.subscriptions t') ∧
       (m.Unsubscribe topic clientID).2 = none ∧
       ((∀ s ∈ m.GetSubscribers topic, s.ClientID ≠ clientID) →
          (m.Unsubscribe topic clientID).1 = m)) ∧
    (∀ m : SubscriptionManager, Reachable m → ∀ topic : String,
       mapLookup m.subscriptions topic ≠ some []) := by
  constructor
  · intro m topic c h
    obtain ⟨hkeys, hent⟩ := reachable_invariant m h
    unfold SubscriptionManager.Unsubscribe SubscriptionManager.GetSubscribers
    cases hl : mapLookup m.subscriptions topic with
    | none => simp [hl]
    | some v =>
      have hvne : v ≠ [] := (hent (topic, v) (mapLookup_mem hl)).1
      have hvn : (v.map Subscription.ClientID).Nodup := (hent (topic, v) (mapLookup_mem hl)).2
      by_cases hany : v.any (fun s => s.ClientID == c)
      · obtain ⟨s0, hs0, hs0c⟩ := List.any_eq_true.mp hany
        have hs0c' : s0.ClientID = c := by simpa using hs0c
        by_cases hempty : removeFirstClient c v = []
        · have hfilter : v.filter (fun s => s.ClientID != c) = [] := by
            rw [← removeFirstClient_eq_filter hvn, hempty]
          simp only [hany, if_true, hempty]
          refine ⟨?_, fun t' ht' => mapLookup_mapDelete_ne _ _ _ ht', trivial, fun hno => ?_⟩
          · simp [mapLookup_mapDelete_self, hfilter]
          · exact absurd hs0c' (hno s0 (by simpa using hs0))
        · have hfilter : v.filter (fun s => s.ClientID != c) = removeFirstClient c v :=
            (removeFirstClient_eq_filter hvn).symm
          simp only [hany, if_true, hempty, if_false]
          refine ⟨?_, fun t' ht' => mapLookup_mapInsert_ne _ _ _ _ (Ne.symm ht'), trivial,
            fun hno => ?_⟩
          · simp [mapLookup_mapInsert_self, hfilter, hempty]
          · exact absurd hs0c' (hno s0 (by simpa using hs0))
      · simp [hany, hl, filter_ne_of_not_any hany, hvne]
  · intro m h topic hsome
    obtain ⟨_, hent⟩ := reachable_invariant m h
    exact (hent (topic, []) (mapLookup_mem hsome)).1 rfl

/-- Witness for C9 at a concrete registry: unsubscribing alice from t1 leaves
exactly the filtered subscriber list, and no reachable topic entry is an
empty list. -/
theorem unsubscribe_behavior_witness :
    (mapLookup (twoClientRegistry.Unsubscribe "t1" "alice").1.subscriptions "t1" =
      (if (twoClientRegistry.GetSubscribers "t1").filter (fun s => s.ClientID != "alice") = []
       then none
       else some ((twoClientRegistry.GetSubscribers "t1").filter
         (fun s => s.ClientID != "alice")))) ∧
    mapLookup twoClientRegistry.subscriptions "t1" ≠ some [] :=
  ⟨(unsubscribe_behavior.1 twoClientRegistry "t1" "alice" twoClientRegistry_reachable).1,
   unsubscribe_behavior.2 twoClientRegistry twoClientRegistry_reachable "t1"⟩

/-! ## Claim C2 -/

/-- Counterexample to C2: on a concrete disconnected session, calling
`Activate()` does not leave the status disconnected — the claimed terminal
state is not enforced by the code. -/
theorem activate_after_disconnect_counterexample :
    ((testPendingSession.Disconnect 1).Activate 2).Status = SessionStatusActive ∧
    SessionStatusActive ≠ SessionStatusDisconnected := by
  exact ⟨rfl, by decide⟩

/-- C2 as the code has it: `Disconnect()` sets the status to disconnected,
but a later `Activate()` unconditionally sets it back to active — there is no
guard preventing the back-transition. -/
theorem activate_overrides_disconnect :
    ∀ (s : Session) (t1 t2 : Int),
      (s.Disconnect t1).Status = SessionStatusDisconnected ∧
      ((s.Disconnect t1).Activate t2).Status = SessionStatusActive :=
  fun _ _ _ => ⟨rfl, rfl⟩

/-! ## Claim C3 -/

/-- Counterexample to C3: a message created with ttl=0 is NOT expired at the
creation instant itself (`time.Now().After` is strict), while the claim says
`IsExpired` returns true at and after the creation instant. -/
theorem ttl_zero_not_expired_at_creation :
    Message.IsExpired (NewMessage "topic" "payload" 0 0) 0 = false := by
  decide

/-- C3 with the boundaries corrected: a ttl=0 message is expired exactly at
the instants strictly after creation; a ttl=T message with
0 ≤ T ≤ 9223372036 (so that `time.Duration(ttl) * time.Second` fits int64)
is not expired at or before T seconds from creation and is expired strictly
after; for ttl = 10^10 the int64 multiplication wraps to a negative duration
and the message is already expired at its creation instant. -/
theorem message_isExpired_boundary :
    ∀ (topic payload : String) (t0 now ttl : Int),
      (Message.IsExpired (NewMessage topic payload 0 t0) now = true ↔ t0 < now) ∧
      (0 ≤ ttl → ttl ≤ 9223372036 → now ≤ t0 + ttl * nanosPerSecond →
        Message.IsExpired (NewMessage topic payload ttl t0) now = false) ∧
      (0 ≤ ttl → ttl ≤ 9223372036 → t0 + ttl * nanosPerSecond < now →
        Message.IsExpired (NewMessage topic payload ttl t0) now = true) ∧
      Message.IsExpired (NewMessage topic payload 10000000000 t0) t0 = true := by
  intro topic payload t0 now ttl
  have hwrap : ∀ n : Int, -9223372036854775808 ≤ n → n < 9223372036854775808 →
      int64Wrap n = n := by
    intro n h1 h2
    unfold int64Wrap
    omega
  have hsmall : 0 ≤ ttl → ttl ≤ 9223372036 →
      int64Wrap (ttl * nanosPerSecond) = ttl * nanosPerSecond := by
    intro h1 h2
    refine hwrap _ (by simp [nanosPerSecond]; omega) (by simp [nanosPerSecond]; omega)
  refine ⟨?_, ?_, ?_, ?_⟩
  · simp only [Message.IsExpired, NewMessage, decide_eq_true_eq]
    rw [show (0 : Int) * nanosPerSecond = 0 by ring, hwrap 0 (by omega) (by omega)]
    omega
  · intro h1 h2 h3
    simp only [Message.IsExpired, NewMessage]
    apply decide_eq_false
    rw [hsmall h1 h2]
    omega
  · intro h1 h2 h3
    simp only [Message.IsExpired, NewMessage]
    apply decide_eq_true
    rw [hsmall h1 h2]
    omega
  · have hbig : int64Wrap (10000000000 * nanosPerSecond) = -8446744073709551616 := by
      unfold int64Wrap nanosPerSecond
      decide
    simp only [Message.IsExpired, NewMessage]
    apply decide_eq_true
    rw [hbig]
    omega

/-- Witness for C3 (amended): one second before a 60s TTL runs out the
message is not expired; one nanosecond after a ttl=0 message's creation it
is; and a ttl = 10^10 message is expired already at creation because the
duration computation wraps. -/
theorem message_isExpired_boundary_witness :
    Message.IsExpired (NewMessage "t" "p" 60 0) 59000000000 = false ∧
    Message.IsExpired (NewMessage "t" "p" 0 0) 1 = true ∧
    Message.IsExpired (NewMessage "t" "p" 10000000000 0) 0 = true :=
  ⟨(message_isExpired_boundary "t" "p" 0 59000000000 60).2.1 (by decide) (by decide) (by decide),
   (message_isExpired_boundary "t" "p" 0 1 0).1.mpr (by decide),
   (message_isExpired_boundary "t" "p" 0 0 0).2.2.2⟩

/-! ## Claim C6 -/

/-- C6: `SignMessage` on a session whose status is not active fails
synchronously with "session is not active", performing no encryption, no
connection to the session topic and no publish (the effect list is empty),
whatever the environment would have answered. -/
theorem signMessage_requires_active_session :
    ∀ (env : WalletEnv) (session : Session) (message : String),
      session.Status ≠ SessionStatusActive →
      WalletClient.SignMessage env session message =
        (Except.error "session is not active", []) := by
  intro env session message h
  simp [WalletClient.SignMessage, h]

/-- Witness for C6: a concrete pending session is rejected with no effects. -/
theorem signMessage_requires_active_session_witness :
    WalletClient.SignMessage ⟨Except.ok "ct", Except.ok (), some 1, Except.ok ()⟩
      testPendingSession "hello" = (Except.error "session is not active", []) :=
  signMessage_requires_active_session _ _ _ (by decide)

/-! ## Claim C1 -/

/-- C1 fails on the code: `EncryptWithSymmetricKey` draws a 16-byte IV
(`aes.BlockSize`) but `cipher.NewGCM` only accepts 12-byte nonces, so
`gcm.Seal` panics on every call with a valid 256-bit key — encryption never
returns a ciphertext, and the round trip `Decrypt(Encrypt(M,K),K) = M` is
impossible. -/
theorem encryptWithSymmetricKey_always_panics :
    ∀ (sealCore : List Nat → List Nat → List Nat → List Nat) (entropy : Nat → Nat)
      (data : List Nat) (keyStr : String) (key : List Nat),
      base64Decode keyStr = some key → key.length = 32 →
      EncryptWithSymmetricKey sealCore entropy data keyStr =
        GoResult.panic "crypto/cipher: incorrect nonce length given to GCM" := by
  intro sealCore entropy data keyStr key hdec hlen
  have hiv : (GenerateRandomBytes entropy 16).length = 16 := by
    simp [GenerateRandomBytes]
  simp [EncryptWithSymmetricKey, hdec, hlen, aesKeySizeOK, gcmSeal, hiv, aesBlockSize,
    gcmStandardNonceSize]

/-- Witness for C1's divergence at a concrete input: encrypting any plaintext
under the all-zero 256-bit key panics inside `gcm.Seal`. -/
theorem encryptWithSymmetricKey_always_panics_witness :
    base64Decode zeroKeyB64 = some (List.replicate 32 0) ∧
    (List.replicate 32 0).length = 32 ∧
    EncryptWithSymmetricKey (fun _ _ plaintext => plaintext) (fun _ => 0)
        [104, 101, 108, 108, 111] zeroKeyB64 =
      GoResult.panic "crypto/cipher: incorrect nonce length given to GCM" :=
  ⟨by decide, by decide,
   encryptWithSymmetricKey_always_panics (fun _ _ plaintext => plaintext) (fun _ => 0)
     [104, 101, 108, 108, 111] zeroKeyB64 (List.replicate 32 0) (by decide) (by decide)⟩

/-! ## Hex and base64 shape lemmas -/

theorem hexDigitChar_isHexDigit : ∀ n : Nat, n < 16 → isHexDigitChar (hexDigitChar n) = true := by
  decide

theorem getD_mem_or_eq {α : Type} : ∀ (l : List α) (n : Nat) (d : α), l.getD n d ∈ l ∨ l.getD n d = d
  | [], _, _ => Or.inr (by simp)
  | a :: l, 0, d => Or.inl (by simp)
  | a :: l, n + 1, d => by
    rcases getD_mem_or_eq l n d with h | h
    · exact Or.inl (by simpa using Or.inr h)
    · exact Or.inr (by simpa using h)

theorem base64Char_mem (n : Nat) : base64Char n ∈ base64Alphabet := by
  rcases getD_mem_or_eq base64Alphabet n 'A' with h | h
  · exact h
  · unfold base64Char
    rw [h]
    decide

theorem hexEncode_length (bytes : List Nat) : (hexEncode bytes).length = 2 * bytes.length := by
  show ((bytes.map hexEncodeByte).flatten).length = 2 * bytes.length
  induction bytes with
  | nil => simp
  | cons b rest ih =>
    simp only [List.map_cons, List.flatten_cons, List.length_append, List.length_cons, ih,
      hexEncodeByte]
    simp
    omega

theorem generateRandomBytes_lt (entropy : Nat → Nat) (n : Nat) :
    ∀ b ∈ GenerateRandomBytes entropy n, b < 256 := by
  intro b hb
  simp only [GenerateRandomBytes, List.mem_map] at hb
  obtain ⟨i, _, rfl⟩ := hb
  exact Nat.mod_lt _ (by norm_num)

theorem hexEncode_chars (bytes : List Nat) (hb : ∀ b ∈ bytes, b < 256) :
    ∀ c ∈ (bytes.map hexEncodeByte).flatten, isHexDigitChar c = true := by
  intro c hc
  rw [List.mem_flatten] at hc
  obtain ⟨l, hl, hcl⟩ := hc
  obtain ⟨b, hbmem, rfl⟩ := List.mem_map.mp hl
  have hb256 := hb b hbmem
  simp only [hexEncodeByte, List.mem_cons, List.not_mem_nil, or_false] at hcl
  rcases hcl with rfl | rfl
  · exact hexDigitChar_isHexDigit _ (by omega)
  · exact hexDigitChar_isHexDigit _ (Nat.mod_lt _ (by norm_num))

theorem base64EncodeGroups_length :
    ∀ l : List Nat, (base64EncodeGroups l).length = (l.length + 2) / 3 * 4
  | [] => by simp [base64EncodeGroups]
  | [_] => by simp [base64EncodeGroups]
  | [_, _] => by simp [base64EncodeGroups]
  | _ :: _ :: _ :: rest => by
    have ih := base64EncodeGroups_length rest
    simp only [base64EncodeGroups, List.length_cons, ih]
    omega

theorem base64EncodeGroups_chars :
    ∀ l : List Nat, ∀ c ∈ base64EncodeGroups l, c ∈ base64Alphabet ∨ c = '='
  | [] => by simp [base64EncodeGroups]
  | [_] => by
    intro c hc
    simp only [base64EncodeGroups, List.mem_cons, List.not_mem_nil, or_false] at hc
    rcases hc with rfl | rfl | rfl | rfl
    · exact Or.inl (base64Char_mem _)
    · exact Or.inl (base64Char_mem _)
    · exact Or.inr rfl
    · exact Or.inr rfl
  | [_, _] => by
    intro c hc
    simp only [base64EncodeGroups, List.mem_cons, List.not_mem_nil, or_false] at hc
    rcases hc with rfl | rfl | rfl | rfl
    · exact Or.inl (base64Char_mem _)
    · exact Or.inl (base64Char_mem _)
    · exact Or.inl (base64Char_mem _)
    · exact Or.inr rfl
  | _ :: _ :: _ :: rest => by
    intro c hc
    simp only [base64EncodeGroups, List.mem_cons] at hc
    rcases hc with rfl | rfl | rfl | rfl | hmem
    · exact Or.inl (base64Char_mem _)
    · exact Or.inl (base64Char_mem _)
    · exact Or.inl (base64Char_mem _)
    · exact Or.inl (base64Char_mem _)
    · exact base64EncodeGroups_chars rest c hmem

/-! ## Claim C8 -/

/-- C8: every session returned by `CreateSession()` yields the pairing URI
`wc:` ++ pairing topic ++ `@2?relay-protocol=irn&symKey=` ++ symmetric key,
where the pairing topic is 64 hex characters and the symmetric key is a
44-character base64 string (alphabet characters plus `=` padding). -/
theorem createSession_pairing_uri :
    ∀ (mgr : SessionManager) (entropy : Nat → Nat → Nat) (clientAddressHex : String) (now : Int),
      (mgr.CreateSession entropy clientAddressHex now).2.GeneratePairingURI =
        "wc:" ++ (mgr.CreateSession entropy clientAddressHex now).2.PairingTopic ++
          "@2?relay-protocol=irn&symKey=" ++
          (mgr.CreateSession entropy clientAddressHex now).2.SymKey ∧
      (mgr.CreateSession entropy clientAddressHex now).2.PairingTopic.length = 64 ∧
      (∀ c ∈ (mgr.CreateSession entropy clientAddressHex now).2.PairingTopic.toList,
        isHexDigitChar c = true) ∧
      (mgr.CreateSession entropy clientAddressHex now).2.SymKey.length = 44 ∧
      (∀ c ∈ (mgr.CreateSession entropy clientAddressHex now).2.SymKey.toList,
        c ∈ base64Alphabet ∨ c = '=') := by
  intro mgr entropy clientAddressHex now
  refine ⟨rfl, ?_, ?_, ?_, ?_⟩
  · show (GenerateRandomTopic (entropy 1)).length = 64
    show (hexEncode (GenerateRandomBytes (entropy 1) 32)).length = 64
    simp [hexEncode_length, GenerateRandomBytes]
  · show ∀ c ∈ (GenerateRandomTopic (entropy 1)).toList, isHexDigitChar c = true
    exact hexEncode_chars _ (generateRandomBytes_lt (entropy 1) 32)
  · show (GenerateSymmetricKey (entropy 3)).length = 44
    show (base64EncodeGroups (GenerateRandomBytes (entropy 3) 32)).length = 44
    simp [base64EncodeGroups_length, GenerateRandomBytes]
  · show ∀ c ∈ (GenerateSymmetricKey (entropy 3)).toList, c ∈ base64Alphabet ∨ c = '='
    exact base64EncodeGroups_chars _

/-- Witness for C8: a concrete session has a 64-character pairing topic and a
44-character symmetric key. -/
theorem createSession_pairing_uri_witness :
    ((⟨[]⟩ : SessionManager).CreateSession (fun _ _ => 0) "addr" 0).2.PairingTopic.length = 64 ∧
    ((⟨[]⟩ : SessionManager).CreateSession (fun _ _ => 0) "addr" 0).2.SymKey.length = 44 :=
  ⟨(createSession_pairing_uri ⟨[]⟩ (fun _ _ => 0) "addr" 0).2.1,
   (createSession_pairing_uri ⟨[]⟩ (fun _ _ => 0) "addr" 0).2.2.2.1⟩

/-! ## Claim C7 -/

/-- C7: a frame that fails to parse as a JSON-RPC request — such as the
syntactically invalid text `{"not":"json"` — is answered with a ParseError
response (code -32700) addressed to id 0 and the connection stays open; a
parsed frame whose method is none of subscribe/publish/unsubscribe is
answered with a Method-not-found response (code -32601) addressed to the
frame's own id. -/
theorem relay_parse_and_method_errors :
    (∀ (st : RelayState) (clientID : String) (conn : Nat) (now : Int) (frame : String),
       ParseJSONRPCRequest frame = none →
       handleFrame st clientID conn now frame =
         (NewJSONRPCErrorResponse 0 (-32700) "Parse error", LoopAction.keepOpen, st)) ∧
    ParseJSONRPCRequest "\x7b\"not\":\"json\"" = none ∧
    (∀ (st : RelayState) (clientID : String) (conn : Nat) (now : Int)
       (request : JSONRPCRequest),
       request.Method ≠ "subscribe" → request.Method ≠ "publish" →
       request.Method ≠ "unsubscribe" →
       handleRequest st clientID conn now request =
         (NewJSONRPCErrorResponse request.ID (-32601) "Method not found", st)) := by
  refine ⟨?_, ?_, ?_⟩
  · intro st clientID conn now frame h
    simp [handleFrame, h]
  · rfl
  · intro st clientID conn now request h1 h2 h3
    simp [handleRequest, h1, h2, h3]

/-- Witness for C7: feeding the malformed frame `{"not":"json"` to the read
loop produces exactly the ParseError response at id 0 without closing the
connection. -/
theorem relay_parse_and_method_errors_witness :
    handleFrame emptyRelayState "client1" 1 0 "\x7b\"not\":\"json\"" =
      (NewJSONRPCErrorResponse 0 (-32700) "Parse error", LoopAction.keepOpen,
       emptyRelayState) :=
  relay_parse_and_method_errors.1 emptyRelayState "client1" 1 0 "\x7b\"not\":\"json\""
    relay_parse_and_method_errors.2.1

/-! ## Claim C10 -/

/-- C10: `SubscriptionManager.Subscribe` returns a `nil` error on every
input, so the -32000 subscription-failure branch of `handleSubscribe` is
unreachable: every subscribe request whose params unmarshal is answered with
the success result `true` at its own id, with the registry updated by the
subscription. -/
theorem subscribe_never_fails :
    (∀ (m : SubscriptionManager) (topic clientID : String) (conn : Nat) (now : Int),
       (m.Subscribe topic clientID conn now).2 = none) ∧
    (∀ (st : RelayState) (clientID : String) (conn : Nat) (now : Int)
       (request : JSONRPCRequest) (params : SubscribeParams),
       request.Method = "subscribe" →
       unmarshalSubscribeParams request.Params = some params →
       handleRequest st clientID conn now request =
         (NewJSONRPCResponse request.ID (JValue.bool true),
          { st with subscriptionManager :=
              (st.subscriptionManager.Subscribe params.Topic clientID conn now).1 })) := by
  have herr : ∀ (m : SubscriptionManager) (topic clientID : String) (conn : Nat) (now : Int),
      (m.Subscribe topic clientID conn now).2 = none := by
    intro m topic clientID conn now
    by_cases hany :
        ((mapLookup m.subscriptions topic).getD []).any (fun s => s.ClientID == clientID)
    · simp [SubscriptionManager.Subscribe, hany]
    · simp [SubscriptionManager.Subscribe, hany]
  refine ⟨herr, ?_⟩
  intro st clientID conn now request params hmethod hparams
  simp [handleRequest, hmethod, handleSubscribe, hparams, herr]

/-- Witness for C10: a concrete subscribe request on the empty relay state is
answered `true` at its id 7. -/
theorem subscribe_never_fails_witness :
    handleRequest emptyRelayState "client1" 1 0 testSubscribeRequest =
      (NewJSONRPCResponse 7 (JValue.bool true),
       { emptyRelayState with subscriptionManager :=
           (emptyRelayState.subscriptionManager.Subscribe "deadbeef" "client1" 1 0).1 }) :=
  subscribe_never_fails.2 emptyRelayState "client1" 1 0 testSubscribeRequest ⟨"deadbeef"⟩
    rfl rfl

end WCTestApp
